import Mathlib

/-!
Shallow embedding of `EsercizioABC.py`: an in-memory document store
(`Database`) and a typed repository (`ProductRepository`) over it.

Python dictionaries are modelled as insertion-ordered association lists
(`List (String × α)`); all dictionary states reachable through the program's
operations have pairwise-distinct keys, and the operations below implement
exactly the Python dict semantics on such lists (`get` finds the first
binding, assignment replaces in place keeping the position, otherwise
appends; `del` removes the binding).

Python exceptions are modelled by `Except PyError`; mutating operations
return their result together with the post-state (`× Database`), so that a
raised exception still exposes the state it leaves behind.

Field values (`Value`) carry strings, floats and datetimes; the program
never computes with floats or datetimes (it only stores and retrieves
them), so both are represented by opaque `Nat` payloads.
-/

namespace EsercizioABC

/-- A value stored in a document field: a string, a float (opaque payload,
no arithmetic is ever performed on it) or a datetime (opaque payload). -/
inductive Value where
  | vstr : String → Value
  | vfloat : Nat → Value
  | vtime : Nat → Value
deriving DecidableEq, Repr

/-- `Document = dict[str, Any]` (line 8 of the source). -/
abbrev Document := List (String × Value)

/-- `Collection = dict[str, Document]` (line 9). -/
abbrev Collection := List (String × Document)

/-- `DatabaseData = dict[str, Collection]` (line 10). -/
abbrev DatabaseData := List (String × Collection)

/-- Python `d.get(k)` / `d[k]` lookup on a dict: first binding of `k`. -/
def dictGet {α : Type} : List (String × α) → String → Option α
  | [], _ => none
  | e :: rest, k => if e.1 = k then some e.2 else dictGet rest k

/-- Python `d[k] = v`: replace the binding of `k` in place (keeping its
position) when present, otherwise append a new binding at the end. -/
def dictSet {α : Type} : List (String × α) → String → α → List (String × α)
  | [], k, v => [(k, v)]
  | e :: rest, k, v =>
      if e.1 = k then (k, v) :: rest else e :: dictSet rest k v

/-- Python `del d[k]`: drop the binding of `k` (keeping all others in
order). -/
def dictDel {α : Type} : List (String × α) → String → List (String × α)
  | [], _ => []
  | e :: rest, k => if e.1 = k then dictDel rest k else e :: dictDel rest k

/-- Errors the program can raise. `connectionError` is Python's
`ConnectionError()` (the spec's `NotConnected`); `typeError` is a Python
`TypeError` (e.g. a membership test on `None`). -/
inductive PyError where
  | connectionError
  | typeError
  | documentAlreadyExists
  | documentNotFound
deriving DecidableEq, Repr

instance : DecidableEq Collection := inferInstance

instance : DecidableEq DatabaseData := inferInstance

/-- `class Database`: `self._data` is `None` until `start` is called. -/
structure Database where
  _data : Option DatabaseData
deriving DecidableEq

/-- `Database.__init__`: `self._data = None`. -/
def Database.init : Database := ⟨none⟩

/-- `Database.start`: `self._data = DatabaseData()` (a fresh empty dict). -/
def Database.start (_db : Database) : Database := ⟨some []⟩

/-- `Database.stop`: `self._data = None`. -/
def Database.stop (_db : Database) : Database := ⟨none⟩

/-- `Database.insert` (lines 49-55): upserts `data` under `doc_id` in
`collection` (creating the collection if absent) and returns `True`;
raises `ConnectionError` when not started. -/
def Database.insert (db : Database) (collection doc_id : String)
    (data : Document) : Except PyError Bool × Database :=
  match db._data with
  | some d =>
      let coll := (dictGet d collection).getD []
      (.ok true, ⟨some (dictSet d collection (dictSet coll doc_id data))⟩)
  | none => (.error .connectionError, db)

/-- `Database.remove` (lines 57-65). Line 59 tests
`doc_id in self._data.get(collection)` with NO default: when `collection`
is absent, `get` returns `None` and the membership test raises
`TypeError`. When the collection exists, a present `doc_id` is deleted
(returning `True`), an absent one returns `False`. -/
def Database.remove (db : Database) (collection doc_id : String) :
    Except PyError Bool × Database :=
  match db._data with
  | some d =>
      match dictGet d collection with
      | none => (.error .typeError, db)
      | some c =>
          if (dictGet c doc_id).isSome then
            (.ok true, ⟨some (dictSet d collection (dictDel c doc_id))⟩)
          else (.ok false, db)
  | none => (.error .connectionError, db)

/-- `Database.fetch_collection` (lines 67-70): the collection, or an empty
one when absent; raises `ConnectionError` when not started. -/
def Database.fetch_collection (db : Database) (collection : String) :
    Except PyError Collection :=
  match db._data with
  | some d => .ok ((dictGet d collection).getD [])
  | none => .error .connectionError

/-- `@dataclass Product` (lines 78-85). `price` is a float and the two
timestamps are datetimes; all three are opaque payloads here. -/
structure Product where
  product_id : String
  name : String
  description : String
  price : Nat
  created : Nat
  updated : Nat
deriving DecidableEq, Repr

/-- `dataclasses.asdict(entity)`: the flat field dict, in field order. -/
def asdict (p : Product) : Document :=
  [("product_id", .vstr p.product_id), ("name", .vstr p.name),
   ("description", .vstr p.description), ("price", .vfloat p.price),
   ("created", .vtime p.created), ("updated", .vtime p.updated)]

/-- `Product(**d)`: keyword construction requires the keys to be exactly
the six field names (otherwise Python raises `TypeError`); the values are
bound to the fields. Documents reaching this call in the program are
always `asdict` images, whose values have the field's shape. -/
def productFromDict (d : Document) : Option Product :=
  if d.length = 6 then
    match dictGet d "product_id", dictGet d "name", dictGet d "description",
          dictGet d "price", dictGet d "created", dictGet d "updated" with
    | some (.vstr a), some (.vstr b), some (.vstr c), some (.vfloat pr),
      some (.vtime cr), some (.vtime up) => some ⟨a, b, c, pr, cr, up⟩
    | _, _, _, _, _, _ => none
  else none

/-- Python truthiness of `coll.get(doc_id)`: `None` and the empty dict are
falsy, a non-empty dict is truthy. -/
def docTruthy : Option Document → Bool
  | none => false
  | some d => !d.isEmpty

/-- `ProductRepository.create` (lines 92-100): raises
`DocumentAlreadyExists` when `entity.product_id` is bound to a truthy
document; otherwise inserts `asdict(entity)` under `entity.product_id`
and returns the entity. -/
def ProductRepository.create (db : Database) (entity : Product) :
    Except PyError Product × Database :=
  match Database.fetch_collection db "product" with
  | .error e => (.error e, db)
  | .ok coll =>
      if docTruthy (dictGet coll entity.product_id) then
        (.error .documentAlreadyExists, db)
      else
        match Database.insert db "product" entity.product_id (asdict entity) with
        | (.ok _, db') => (.ok entity, db')
        | (.error e, db') => (.error e, db')

/-- `ProductRepository.update` (lines 102-110): checks `doc_id` for
existence but inserts keyed by `entity.product_id`. -/
def ProductRepository.update (db : Database) (doc_id : String)
    (entity : Product) : Except PyError Product × Database :=
  match Database.fetch_collection db "product" with
  | .error e => (.error e, db)
  | .ok coll =>
      if docTruthy (dictGet coll doc_id) then
        match Database.insert db "product" entity.product_id (asdict entity) with
        | (.ok _, db') => (.ok entity, db')
        | (.error e, db') => (.error e, db')
      else (.error .documentNotFound, db)

/-- The list comprehension `[Product(**d) for d in products.values()]`:
a document that is not valid keyword input raises `TypeError`. -/
def productsOfValues : List Document → Except PyError (List Product)
  | [] => .ok []
  | d :: rest =>
      match productFromDict d with
      | some p =>
          match productsOfValues rest with
          | .ok ps => .ok (p :: ps)
          | .error e => .error e
      | none => .error .typeError

/-- `ProductRepository.find_all` (lines 112-116): raises
`DocumentNotFound` when the collection is empty, otherwise deserializes
every document in collection order. -/
def ProductRepository.find_all (db : Database) :
    Except PyError (List Product) :=
  match Database.fetch_collection db "product" with
  | .error e => .error e
  | .ok products =>
      if products.length = 0 then .error .documentNotFound
      else productsOfValues (products.map Prod.snd)

/-- `ProductRepository.delete` (lines 118-122): returns `False` when the
lookup of `doc_id` is falsy, otherwise forwards to `Database.remove`. -/
def ProductRepository.delete (db : Database) (doc_id : String) :
    Except PyError Bool × Database :=
  match Database.fetch_collection db "product" with
  | .error e => (.error e, db)
  | .ok coll =>
      if docTruthy (dictGet coll doc_id) then
        Database.remove db "product" doc_id
      else (.ok false, db)

/-- `ProductRepository.find_by_id` (lines 124-128): deserializes a truthy
document, raises `DocumentNotFound` otherwise. -/
def ProductRepository.find_by_id (db : Database) (doc_id : String) :
    Except PyError Product :=
  match Database.fetch_collection db "product" with
  | .error e => .error e
  | .ok coll =>
      match dictGet coll doc_id with
      | some d =>
          if !d.isEmpty then
            match productFromDict d with
            | some p => .ok p
            | none => .error .typeError
          else .error .documentNotFound
      | none => .error .documentNotFound

/-- The "product" collection of a store state (empty when absent or when
the store is not started); on started states this is what
`fetch_collection "product"` returns. -/
def prodColl (db : Database) : Collection :=
  match db._data with
  | some data => (dictGet data "product").getD []
  | none => []

/-! ### Dictionary lemmas -/

theorem dictGet_dictSet {α : Type} (l : List (String × α)) (k k' : String) (v : α) :
    dictGet (dictSet l k v) k' = if k' = k then some v else dictGet l k' := by
  induction l with
  | nil =>
      by_cases h : k' = k
      · subst h; simp [dictSet, dictGet]
      · simp [dictSet, dictGet, h, Ne.symm h]
  | cons e rest ih =>
      by_cases he : e.1 = k
      · by_cases h : k' = k
        · subst h; simp [dictSet, dictGet, he, ih]
        · simp [dictSet, dictGet, he, h, ih, Ne.symm h]
      · by_cases h : k' = k
        · subst h; simp [dictSet, dictGet, he, ih]
        · simp [dictSet, dictGet, he, h, ih]

theorem dictGet_dictDel {α : Type} (l : List (String × α)) (k k' : String) :
    dictGet (dictDel l k) k' = if k' = k then none else dictGet l k' := by
  induction l with
  | nil => simp [dictDel, dictGet]
  | cons e rest ih =>
      by_cases he : e.1 = k
      · by_cases h : k' = k
        · subst h; simp [dictDel, he, ih]
        · simp [dictDel, dictGet, he, h, ih, Ne.symm h]
      · by_cases h : k' = k
        · subst h; simp [dictDel, dictGet, he, ih, Ne.symm he]
        · simp [dictDel, dictGet, he, h, ih]

theorem dictGet_eq_none_iff {α : Type} (l : List (String × α)) (k : String) :
    dictGet l k = none ↔ k ∉ l.map Prod.fst := by
  induction l with
  | nil => simp [dictGet]
  | cons e rest ih =>
      by_cases he : e.1 = k
      · subst he; simp [dictGet]
      · simp [dictGet, he, ih, Ne.symm he]

theorem dictSet_of_get_none {α : Type} {l : List (String × α)} {k : String}
    (v : α) (h : dictGet l k = none) : dictSet l k v = l ++ [(k, v)] := by
  induction l with
  | nil => simp [dictSet]
  | cons e rest ih =>
      by_cases he : e.1 = k
      · simp [dictGet, he] at h
      · simp only [dictGet, he, if_false, if_neg he] at h
        simp [dictSet, he, ih h]

theorem dictDel_of_get_none {α : Type} {l : List (String × α)} {k : String}
    (h : dictGet l k = none) : dictDel l k = l := by
  induction l with
  | nil => rfl
  | cons e rest ih =>
      by_cases he : e.1 = k
      · simp [dictGet, he] at h
      · simp only [dictGet, he, if_neg he] at h
        simp [dictDel, he, ih h]

/-- Deserialization inverts serialization. -/
theorem productFromDict_asdict (p : Product) :
    productFromDict (asdict p) = some p := by
  rfl

/-- A serialized product is never the empty document. -/
theorem asdict_ne_nil (p : Product) : asdict p ≠ [] := by
  simp [asdict]

/-- A serialized product is a truthy document. -/
theorem docTruthy_asdict (p : Product) : docTruthy (some (asdict p)) = true := rfl

/-! ### Claim theorems -/

/-- C1: the claim says `remove(c, d)` returns `false` (without error)
whenever `d` is absent from `c`, including when collection `c` does not
exist. The code only returns `false` when the collection exists; on a
missing collection its membership test `doc_id in self._data.get(c)` is a
membership test on `None` and raises `TypeError` — contradicting the
spec's own "missing collection is treated as empty" invariant (and the
default-carrying lookup on the very next source line). This theorem
evaluates the code at both inputs: a started store with no collection
`"c"` (raises), and one whose collection `"c"` exists but lacks `"d"`
(returns `false`). -/
theorem c1_remove_missing_collection_raises :
    Database.remove ⟨some []⟩ "c" "d" = (.error .typeError, ⟨some []⟩) ∧
    Database.remove ⟨some [("c", [])]⟩ "c" "d" =
      (.ok false, ⟨some [("c", [])]⟩) := by
  constructor <;> rfl

/-- C8: while `_data` is `None` (fresh store, or after `stop`), `insert`,
`remove` and `fetch_collection` all raise the "not connected" error
(`ConnectionError`) for every argument; on a started store none of the
three ever raises it. -/
theorem c8_not_connected_lifecycle :
    (∀ (db : Database) (c i : String) (d : Document), db._data = none →
        Database.insert db c i d = (.error .connectionError, db) ∧
        Database.remove db c i = (.error .connectionError, db) ∧
        Database.fetch_collection db c = .error .connectionError) ∧
    (∀ (db : Database) (data : DatabaseData) (c i : String) (d : Document),
        db._data = some data →
        (Database.insert db c i d).1 ≠ .error .connectionError ∧
        (Database.remove db c i).1 ≠ .error .connectionError ∧
        Database.fetch_collection db c ≠ .error .connectionError) ∧
    Database.init._data = none ∧
    (∀ db : Database, (Database.stop db)._data = none) := by
  refine ⟨?_, ?_, rfl, fun _ => rfl⟩
  · intro db c i d h
    simp [Database.insert, Database.remove, Database.fetch_collection, h]
  · intro db data c i d h
    refine ⟨?_, ?_, ?_⟩
    · simp [Database.insert, h]
    · simp only [Database.remove, h]
      cases hdc : dictGet data c with
      | none => simp
      | some cl =>
          simp only [hdc]
          split <;> simp
    · simp [Database.fetch_collection, h]

/-- Witness for C8: evaluated on a never-started store and on a freshly
started one. -/
theorem c8_not_connected_lifecycle_witness :
    (Database.init._data = none ∧
      Database.insert Database.init "c" "d" [] =
        (.error .connectionError, Database.init)) ∧
    ((Database.start Database.init)._data = some [] ∧
      (Database.remove (Database.start Database.init) "c" "d").1 ≠
        .error .connectionError) :=
  ⟨⟨rfl, (c8_not_connected_lifecycle.1 Database.init "c" "d" [] rfl).1⟩,
   ⟨rfl, ((c8_not_connected_lifecycle.2.1 (Database.start Database.init) []
      "c" "d" [] rfl).2.1)⟩⟩

/-- C9: `start()` on any store (also an already-started one holding data)
leaves `_data` a fresh empty mapping, and every subsequent
`fetch_collection` returns an empty collection. -/
theorem c9_start_resets (db : Database) (c : String) :
    (Database.start db)._data = some [] ∧
    Database.fetch_collection (Database.start db) c = .ok [] :=
  ⟨rfl, rfl⟩

/-- C10: existence checks are truthiness checks. When the "product"
collection maps `d` to the EMPTY document (as `Store.insert` with empty
data produces), `find_by_id d` raises `DocumentNotFound`, and `create` of
an entity whose `product_id` is `d` succeeds, overwriting the empty
document. -/
theorem c10_truthiness (db : Database) (data : DatabaseData) (d : String)
    (h : db._data = some data) (hd : dictGet (prodColl db) d = some []) :
    ProductRepository.find_by_id db d = .error .documentNotFound ∧
    ∀ e : Product, e.product_id = d →
      (ProductRepository.create db e).1 = .ok e ∧
      dictGet (prodColl (ProductRepository.create db e).2) d =
        some (asdict e) := by
  simp only [prodColl, h] at hd
  constructor
  · simp [ProductRepository.find_by_id, Database.fetch_collection, h, hd]
  · intro e he
    simp only [ProductRepository.create, Database.fetch_collection, h,
      Database.insert, he, hd, docTruthy, List.isEmpty_nil, Bool.not_true,
      Bool.false_eq_true, if_false, prodColl]
    simp [dictGet_dictSet]

/-- Witness for C10: the empty document is planted by a direct
`Store.insert` with empty data on a freshly started store. -/
theorem c10_truthiness_witness :
    ((Database.insert (Database.start Database.init) "product" "d" []).2)._data
      = some [("product", [("d", [])])] ∧
    ProductRepository.find_by_id
      (Database.insert (Database.start Database.init) "product" "d" []).2 "d"
      = .error .documentNotFound ∧
    (ProductRepository.create
      (Database.insert (Database.start Database.init) "product" "d" []).2
      ⟨"d", "n", "x", 1, 2, 3⟩).1 = .ok ⟨"d", "n", "x", 1, 2, 3⟩ ∧
    dictGet (prodColl (ProductRepository.create
      (Database.insert (Database.start Database.init) "product" "d" []).2
      ⟨"d", "n", "x", 1, 2, 3⟩).2) "d" = some (asdict ⟨"d", "n", "x", 1, 2, 3⟩) := by
  have h := c10_truthiness
    (Database.insert (Database.start Database.init) "product" "d" []).2
    [("product", [("d", [])])] "d" rfl rfl
  exact ⟨rfl, h.1, (h.2 ⟨"d", "n", "x", 1, 2, 3⟩ rfl).1,
    (h.2 ⟨"d", "n", "x", 1, 2, 3⟩ rfl).2⟩

/-- C2, counterexample to the claim as stated: a started store whose
"product" collection maps `"d"` to the EMPTY document does "contain a
document under doc_id", yet `update("d", entity)` with
`entity.product_id = "x" ≠ "d"` raises `DocumentNotFound` instead of
returning the entity (the existence check is a truthiness check). -/
theorem c2_update_mismatched_id_cex :
    (ProductRepository.update ⟨some [("product", [("d", [])])]⟩ "d"
      ⟨"x", "n", "ds", 1, 2, 3⟩).1 = .error .documentNotFound := by
  rfl

/-- C2 (amended: the document under `doc_id` must be NON-EMPTY): `update`
then returns the entity, stores its serialization under
`entity.product_id`, and leaves the document under `doc_id` unchanged. -/
theorem c2_update_mismatched_id (db : Database) (data : DatabaseData)
    (doc_id : String) (dd : Document) (e : Product)
    (h : db._data = some data) (hdoc : dictGet (prodColl db) doc_id = some dd)
    (hne : dd ≠ []) (hid : e.product_id ≠ doc_id) :
    (ProductRepository.update db doc_id e).1 = .ok e ∧
    dictGet (prodColl (ProductRepository.update db doc_id e).2) e.product_id
      = some (asdict e) ∧
    dictGet (prodColl (ProductRepository.update db doc_id e).2) doc_id
      = some dd := by
  simp only [prodColl, h] at hdoc
  have htr : docTruthy (dictGet ((dictGet data "product").getD []) doc_id)
      = true := by
    rw [hdoc]
    cases dd with
    | nil => exact absurd rfl hne
    | cons a t => rfl
  simp only [ProductRepository.update, Database.fetch_collection, h, htr,
    if_true, Database.insert, prodColl]
  refine ⟨trivial, ?_, ?_⟩
  · simp [dictGet_dictSet]
  · simp [dictGet_dictSet, Ne.symm hid, hdoc]

/-- Witness for C2's amended theorem, at a store holding the serialization
of a product under `"d"` and an entity with `product_id = "e"`. -/
theorem c2_update_mismatched_id_witness :
    (ProductRepository.update
        ⟨some [("product", [("d", asdict ⟨"d", "n", "x", 1, 2, 3⟩)])]⟩ "d"
        ⟨"e", "m", "y", 4, 5, 6⟩).1 = .ok ⟨"e", "m", "y", 4, 5, 6⟩ ∧
    dictGet (prodColl (ProductRepository.update
        ⟨some [("product", [("d", asdict ⟨"d", "n", "x", 1, 2, 3⟩)])]⟩ "d"
        ⟨"e", "m", "y", 4, 5, 6⟩).2) "e" = some (asdict ⟨"e", "m", "y", 4, 5, 6⟩) ∧
    dictGet (prodColl (ProductRepository.update
        ⟨some [("product", [("d", asdict ⟨"d", "n", "x", 1, 2, 3⟩)])]⟩ "d"
        ⟨"e", "m", "y", 4, 5, 6⟩).2) "d" = some (asdict ⟨"d", "n", "x", 1, 2, 3⟩) :=
  c2_update_mismatched_id _ _ "d" (asdict ⟨"d", "n", "x", 1, 2, 3⟩)
    ⟨"e", "m", "y", 4, 5, 6⟩ rfl rfl (by decide) (by decide)

/-- C3: on a started store whose "product" collection has no binding for
`P.product_id`, `create(P)` succeeds and a subsequent
`find_by_id(P.product_id)` returns a product equal to `P` in every
field. -/
theorem c3_create_find_roundtrip (db : Database) (data : DatabaseData)
    (P : Product) (h : db._data = some data)
    (habs : dictGet (prodColl db) P.product_id = none) :
    (ProductRepository.create db P).1 = .ok P ∧
    ProductRepository.find_by_id (ProductRepository.create db P).2
      P.product_id = .ok P := by
  simp only [prodColl, h] at habs
  simp only [ProductRepository.create, Database.fetch_collection, h, habs,
    docTruthy, Bool.false_eq_true, if_false, Database.insert]
  refine ⟨trivial, ?_⟩
  simp only [ProductRepository.find_by_id, Database.fetch_collection]
  simp [dictGet_dictSet, productFromDict_asdict, asdict_ne_nil]

/-- Witness for C3: a fresh started store and a concrete product. -/
theorem c3_create_find_roundtrip_witness :
    (ProductRepository.create (Database.start Database.init)
      ⟨"1", "Test", "Test", 10, 0, 0⟩).1 = .ok ⟨"1", "Test", "Test", 10, 0, 0⟩ ∧
    ProductRepository.find_by_id
      (ProductRepository.create (Database.start Database.init)
        ⟨"1", "Test", "Test", 10, 0, 0⟩).2 "1" = .ok ⟨"1", "Test", "Test", 10, 0, 0⟩ :=
  c3_create_find_roundtrip (Database.start Database.init) []
    ⟨"1", "Test", "Test", 10, 0, 0⟩ rfl rfl

/-- C4: once `create(P1)` has succeeded, `create(P2)` with the same
`product_id` raises `DocumentAlreadyExists`, returns the state unchanged,
and the stored document is still the serialization of `P1`. -/
theorem c4_create_unique (db : Database) (P1 P2 : Product)
    (hid : P2.product_id = P1.product_id)
    (hok : (ProductRepository.create db P1).1 = .ok P1) :
    (ProductRepository.create (ProductRepository.create db P1).2 P2).1 =
      .error .documentAlreadyExists ∧
    (ProductRepository.create (ProductRepository.create db P1).2 P2).2 =
      (ProductRepository.create db P1).2 ∧
    dictGet (prodColl (ProductRepository.create db P1).2) P1.product_id =
      some (asdict P1) := by
  cases hdata : db._data with
  | none =>
      simp [ProductRepository.create, Database.fetch_collection, hdata] at hok
  | some data =>
      by_cases htr : docTruthy
          (dictGet ((dictGet data "product").getD []) P1.product_id) = true
      · simp [ProductRepository.create, Database.fetch_collection, hdata,
          htr] at hok
      · rw [Bool.not_eq_true] at htr
        simp only [ProductRepository.create, Database.fetch_collection,
          hdata, htr, Bool.false_eq_true, if_false, Database.insert, prodColl,
          hid]
        simp [dictGet_dictSet, docTruthy, asdict]

/-- Witness for C4: two concrete products sharing `product_id = "1"` on a
fresh started store. -/
theorem c4_create_unique_witness :
    (ProductRepository.create
      (ProductRepository.create (Database.start Database.init)
        ⟨"1", "a", "b", 1, 2, 3⟩).2 ⟨"1", "c", "d", 4, 5, 6⟩).1 =
      .error .documentAlreadyExists ∧
    (ProductRepository.create
      (ProductRepository.create (Database.start Database.init)
        ⟨"1", "a", "b", 1, 2, 3⟩).2 ⟨"1", "c", "d", 4, 5, 6⟩).2 =
      (ProductRepository.create (Database.start Database.init)
        ⟨"1", "a", "b", 1, 2, 3⟩).2 ∧
    dictGet (prodColl (ProductRepository.create (Database.start Database.init)
        ⟨"1", "a", "b", 1, 2, 3⟩).2) "1" = some (asdict ⟨"1", "a", "b", 1, 2, 3⟩) :=
  c4_create_unique (Database.start Database.init) ⟨"1", "a", "b", 1, 2, 3⟩
    ⟨"1", "c", "d", 4, 5, 6⟩ rfl rfl

/-- C6, counterexample to the claim as stated: a started store whose
"product" collection maps `"d"` to the EMPTY document has a document
present under `"d"`, yet `delete("d")` returns `false` (the existence
check is a truthiness check), not `true` as the claim requires. -/
theorem c6_delete_empty_document_cex :
    dictGet (prodColl ⟨some [("product", [("d", [])])]⟩) "d" = some [] ∧
    (ProductRepository.delete ⟨some [("product", [("d", [])])]⟩ "d").1 =
      .ok false := ⟨rfl, rfl⟩

/-- C6 (amended: "present" must be "present and non-empty" in the second
half): on a started store, `delete(id)` with no binding for `id` returns
`false` raising nothing; `delete(id)` on a present NON-EMPTY document
returns `true`, after which `find_by_id(id)` raises `DocumentNotFound`. -/
theorem c6_delete_asymmetry (db : Database) (data : DatabaseData) (i : String)
    (h : db._data = some data) :
    (dictGet (prodColl db) i = none →
      ProductRepository.delete db i = (.ok false, db)) ∧
    (∀ dd : Document, dictGet (prodColl db) i = some dd → dd ≠ [] →
      (ProductRepository.delete db i).1 = .ok true ∧
      ProductRepository.find_by_id (ProductRepository.delete db i).2 i =
        .error .documentNotFound) := by
  constructor
  · intro habs
    simp only [prodColl, h] at habs
    simp [ProductRepository.delete, Database.fetch_collection, h, habs,
      docTruthy]
  · intro dd hdd hne
    simp only [prodColl, h] at hdd
    have htr : docTruthy (dictGet ((dictGet data "product").getD []) i)
        = true := by
      rw [hdd]
      cases dd with
      | nil => exact absurd rfl hne
      | cons a t => rfl
    cases hc : dictGet data "product" with
    | none => rw [hc] at hdd; simp [dictGet] at hdd
    | some c =>
        rw [hc] at hdd htr
        simp only [Option.getD_some] at hdd htr
        rw [hdd] at htr
        have hdel : ProductRepository.delete db i =
            (.ok true, ⟨some (dictSet data "product" (dictDel c i))⟩) := by
          simp only [ProductRepository.delete, Database.fetch_collection, h,
            hc, Option.getD_some, hdd, htr, if_true, Database.remove,
            Option.isSome_some]
        rw [hdel]
        refine ⟨rfl, ?_⟩
        simp only [ProductRepository.find_by_id, Database.fetch_collection]
        simp [dictGet_dictSet, dictGet_dictDel]

/-- Witness for C6's amended theorem: a store holding one product under
`"2"`; `delete("zz")` returns `false`, `delete("2")` returns `true` and
the deleted id is no longer findable. -/
theorem c6_delete_asymmetry_witness :
    (ProductRepository.delete
        ⟨some [("product", [("2", asdict ⟨"2", "Test", "Test", 10, 0, 0⟩)])]⟩
        "zz" =
      (.ok false,
        ⟨some [("product", [("2", asdict ⟨"2", "Test", "Test", 10, 0, 0⟩)])]⟩)) ∧
    ((ProductRepository.delete
        ⟨some [("product", [("2", asdict ⟨"2", "Test", "Test", 10, 0, 0⟩)])]⟩
        "2").1 = .ok true ∧
      ProductRepository.find_by_id (ProductRepository.delete
        ⟨some [("product", [("2", asdict ⟨"2", "Test", "Test", 10, 0, 0⟩)])]⟩
        "2").2 "2" = .error .documentNotFound) :=
  ⟨(c6_delete_asymmetry _ [("product", [("2", asdict ⟨"2", "Test", "Test", 10, 0, 0⟩)])]
      "zz" rfl).1 rfl,
   (c6_delete_asymmetry _ [("product", [("2", asdict ⟨"2", "Test", "Test", 10, 0, 0⟩)])]
      "2" rfl).2 (asdict ⟨"2", "Test", "Test", 10, 0, 0⟩) rfl (by decide)⟩

/-- A truthy lookup is a successful lookup. -/
theorem docTruthy_isSome {o : Option Document} (h : docTruthy o = true) :
    o.isSome = true := by
  cases o with
  | none => simp [docTruthy] at h
  | some d => rfl

/-- The "product" collection of the state written by an `insert` into
"product". -/
theorem prodColl_insert_state (data : DatabaseData) (X : Collection) :
    prodColl ⟨some (dictSet data "product" X)⟩ = X := by
  simp [prodColl, dictGet_dictSet]

/-- The repository invariant of claim C5: every document held in the
"product" collection is the serialization of a product whose
`product_id` equals the key the document is stored under. -/
def prodInv (db : Database) : Prop :=
  ∀ k d, dictGet (prodColl db) k = some d →
    ∃ p : Product, d = asdict p ∧ p.product_id = k

/-- C5: a freshly started store satisfies the key invariant, and every
repository operation preserves it. (`find_by_id` and `find_all` are
read-only — they return no successor state in this embedding — so the
three mutating operations `create`, `update` and `delete` are the ones
quantified here.) -/
theorem c5_key_invariant (db : Database) (h : prodInv db) :
    prodInv (Database.start db) ∧
    ∀ (e : Product) (i : String),
      prodInv (ProductRepository.create db e).2 ∧
      prodInv (ProductRepository.update db i e).2 ∧
      prodInv (ProductRepository.delete db i).2 := by
  constructor
  · intro k d hk
    simp [prodColl, Database.start, dictGet] at hk
  intro e i
  cases hdata : db._data with
  | none =>
      refine ⟨?_, ?_, ?_⟩ <;>
        simpa [ProductRepository.create, ProductRepository.update,
          ProductRepository.delete, Database.fetch_collection, hdata] using h
  | some data =>
      have hcoll : prodColl db = (dictGet data "product").getD [] := by
        simp [prodColl, hdata]
      refine ⟨?_, ?_, ?_⟩
      · by_cases htr : docTruthy
            (dictGet ((dictGet data "product").getD []) e.product_id) = true
        · simpa [ProductRepository.create, Database.fetch_collection, hdata,
            htr] using h
        · rw [Bool.not_eq_true] at htr
          simp only [ProductRepository.create, Database.fetch_collection,
            hdata, htr, Bool.false_eq_true, if_false, Database.insert]
          intro k d hk
          rw [prodColl_insert_state, dictGet_dictSet] at hk
          by_cases hkk : k = e.product_id
          · refine ⟨e, ?_, hkk.symm⟩
            rw [if_pos hkk] at hk
            exact (Option.some_inj.mp hk).symm
          · rw [if_neg hkk] at hk
            exact h k d (by rw [hcoll]; exact hk)
      · by_cases htr : docTruthy
            (dictGet ((dictGet data "product").getD []) i) = true
        · simp only [ProductRepository.update, Database.fetch_collection,
            hdata, htr, if_true, Database.insert]
          intro k d hk
          rw [prodColl_insert_state, dictGet_dictSet] at hk
          by_cases hkk : k = e.product_id
          · refine ⟨e, ?_, hkk.symm⟩
            rw [if_pos hkk] at hk
            exact (Option.some_inj.mp hk).symm
          · rw [if_neg hkk] at hk
            exact h k d (by rw [hcoll]; exact hk)
        · rw [Bool.not_eq_true] at htr
          simpa [ProductRepository.update, Database.fetch_collection, hdata,
            htr] using h
      · by_cases htr : docTruthy
            (dictGet ((dictGet data "product").getD []) i) = true
        · cases hc : dictGet data "product" with
          | none =>
              rw [hc] at htr
              simp [dictGet, docTruthy] at htr
          | some c =>
              rw [hc, Option.getD_some] at htr
              have hs : (dictGet c i).isSome = true := docTruthy_isSome htr
              simp only [ProductRepository.delete, Database.fetch_collection,
                hdata, hc, Option.getD_some, htr, if_true, Database.remove,
                hs]
              intro k d hk
              rw [prodColl_insert_state, dictGet_dictDel] at hk
              by_cases hkk : k = i
              · rw [if_pos hkk] at hk
                exact absurd hk (by simp)
              · rw [if_neg hkk] at hk
                exact h k d (by rw [hcoll, hc, Option.getD_some]; exact hk)
        · rw [Bool.not_eq_true] at htr
          simpa [ProductRepository.delete, Database.fetch_collection, hdata,
            htr] using h

/-- Witness for C5: the invariant holds of a fresh started store and is
preserved by a concrete `create`, `update` and `delete`. -/
theorem c5_key_invariant_witness :
    prodInv (Database.start Database.init) ∧
    (prodInv (ProductRepository.create (Database.start Database.init)
        ⟨"1", "a", "b", 1, 2, 3⟩).2 ∧
      prodInv (ProductRepository.update (Database.start Database.init) "1"
        ⟨"1", "a", "b", 1, 2, 3⟩).2 ∧
      prodInv (ProductRepository.delete (Database.start Database.init) "1").2) := by
  have h0 : prodInv (Database.start Database.init) := by
    intro k d hk
    simp [prodColl, Database.start, dictGet] at hk
  exact ⟨h0, (c5_key_invariant (Database.start Database.init) h0).2
    ⟨"1", "a", "b", 1, 2, 3⟩ "1"⟩

/-! ### C7 infrastructure: runs of creates followed by runs of deletes -/

/-- Folding `ProductRepository.create` over a list of products, keeping
the successor state of every call (a failed call leaves the state
unchanged). -/
def createAll (db : Database) (ps : List Product) : Database :=
  ps.foldl (fun d p => (ProductRepository.create d p).2) db

/-- Folding `ProductRepository.delete` over a list of ids. -/
def deleteAll (db : Database) (ids : List String) : Database :=
  ids.foldl (fun d i => (ProductRepository.delete d i).2) db

/-- The collection contents produced by creating a list of products in
order. -/
def serializeList (ps : List Product) : Collection :=
  ps.map (fun p => (p.product_id, asdict p))

theorem dictGet_mem {α : Type} {l : List (String × α)} {k : String} {v : α}
    (h : dictGet l k = some v) : (k, v) ∈ l := by
  induction l with
  | nil => simp [dictGet] at h
  | cons e rest ih =>
      by_cases he : e.1 = k
      · rw [dictGet, if_pos he] at h
        cases e with
        | mk a b =>
            cases he
            cases Option.some_inj.mp h
            exact List.mem_cons_self _ _
      · rw [dictGet, if_neg he] at h
        exact List.mem_cons_of_mem _ (ih h)

theorem dictDel_eq_filter {α : Type} (l : List (String × α)) (k : String) :
    dictDel l k = l.filter (fun e => decide (e.1 ≠ k)) := by
  induction l with
  | nil => rfl
  | cons e rest ih =>
      by_cases he : e.1 = k <;> simp [dictDel, List.filter_cons, he, ih]

/-- Creating products with fresh, pairwise-distinct ids on a
single-collection state appends their serializations in order. -/
theorem createAll_state (ps : List Product) (L : Collection)
    (h : (L.map Prod.fst ++ ps.map Product.product_id).Nodup) :
    createAll ⟨some [("product", L)]⟩ ps =
      ⟨some [("product", L ++ serializeList ps)]⟩ := by
  induction ps generalizing L with
  | nil => simp [createAll, serializeList]
  | cons p rest ih =>
      have hdisj : List.Disjoint (L.map Prod.fst)
          (p.product_id :: rest.map Product.product_id) := by
        simpa using List.disjoint_of_nodup_append h
      have hni : p.product_id ∉ L.map Prod.fst :=
        fun hmem => hdisj hmem (List.mem_cons_self _ _)
      have hget : dictGet L p.product_id = none :=
        (dictGet_eq_none_iff _ _).mpr hni
      have hstep : ProductRepository.create ⟨some [("product", L)]⟩ p =
          (.ok p, ⟨some [("product", L ++ [(p.product_id, asdict p)])]⟩) := by
        simp [ProductRepository.create, Database.fetch_collection, dictGet,
          hget, docTruthy, Database.insert, dictSet, dictSet_of_get_none _ hget]
      have hrec : (L.map Prod.fst ++ [p.product_id]
          ++ rest.map Product.product_id).Nodup := by
        simpa [List.append_assoc] using h
      have hrec' : ((L ++ [(p.product_id, asdict p)]).map Prod.fst
          ++ rest.map Product.product_id).Nodup := by
        simpa [List.map_append] using hrec
      calc createAll ⟨some [("product", L)]⟩ (p :: rest)
      _ = createAll ⟨some [("product", L ++ [(p.product_id, asdict p)])]⟩
            rest := by
          simp only [createAll, List.foldl_cons, hstep]
      _ = ⟨some [("product", (L ++ [(p.product_id, asdict p)])
            ++ serializeList rest)]⟩ := ih _ hrec'
      _ = ⟨some [("product", L ++ serializeList (p :: rest))]⟩ := by
          simp [serializeList]

/-- The very first create on a freshly started store. -/
theorem create_on_fresh (p : Product) :
    ProductRepository.create ⟨some []⟩ p =
      (.ok p, ⟨some [("product", [(p.product_id, asdict p)])]⟩) := by
  simp [ProductRepository.create, Database.fetch_collection, dictGet,
    docTruthy, Database.insert, dictSet]

/-- Deleting ids from a single-collection state whose documents are all
serialized products removes exactly the bindings of those ids. -/
theorem deleteAll_state (ids : List String) (L : Collection)
    (hwf : ∀ e ∈ L, ∃ p : Product, e.2 = asdict p) :
    deleteAll ⟨some [("product", L)]⟩ ids =
      ⟨some [("product", ids.foldl dictDel L)]⟩ := by
  induction ids generalizing L with
  | nil => simp [deleteAll]
  | cons i rest ih =>
      have hstep : (ProductRepository.delete ⟨some [("product", L)]⟩ i).2 =
          ⟨some [("product", dictDel L i)]⟩ := by
        cases hgi : dictGet L i with
        | none =>
            simp [ProductRepository.delete, Database.fetch_collection,
              dictGet, hgi, docTruthy, dictDel_of_get_none hgi]
        | some dd =>
            obtain ⟨p, hp⟩ := hwf (i, dd) (dictGet_mem hgi)
            have htr : docTruthy (some dd) = true := by
              rw [show dd = asdict p from hp]
              rfl
            simp [ProductRepository.delete, Database.fetch_collection,
              dictGet, hgi, htr, Database.remove, dictSet]
      have hwf' : ∀ e ∈ dictDel L i, ∃ p : Product, e.2 = asdict p := by
        intro e he
        rw [dictDel_eq_filter] at he
        exact hwf e (List.mem_of_mem_filter he)
      calc deleteAll ⟨some [("product", L)]⟩ (i :: rest)
      _ = deleteAll ⟨some [("product", dictDel L i)]⟩ rest := by
          simp only [deleteAll, List.foldl_cons, hstep]
      _ = ⟨some [("product", rest.foldl dictDel (dictDel L i))]⟩ :=
          ih _ hwf'
      _ = ⟨some [("product", (i :: rest).foldl dictDel L)]⟩ := by
          simp

/-- A run of deletions filters the collection by key. -/
theorem foldl_dictDel_eq_filter (ids : List String) (L : Collection) :
    ids.foldl dictDel L = L.filter (fun e => decide (e.1 ∉ ids)) := by
  induction ids generalizing L with
  | nil => simp
  | cons i rest ih =>
      simp only [List.foldl_cons, ih, dictDel_eq_filter, List.filter_filter]
      apply List.filter_congr
      intro e _
      by_cases h1 : e.1 = i <;> by_cases h2 : e.1 ∈ rest <;> simp [h1, h2]

/-- `Prod.fst` commutes with filtering on keys. -/
theorem map_fst_filter_keys (L : Collection) (ds : List String) :
    (L.filter (fun e => decide (e.1 ∉ ds))).map Prod.fst
      = (L.map Prod.fst).filter (fun k => decide (k ∉ ds)) := by
  induction L with
  | nil => rfl
  | cons e rest ih =>
      by_cases he : e.1 ∈ ds
      · have h1 : decide (e.1 ∉ ds) = false := by simp [he]
        rw [List.filter_cons, h1, List.map_cons, List.filter_cons, h1]
        simp only [Bool.false_eq_true, if_false]
        exact ih
      · have h1 : decide (e.1 ∉ ds) = true := by simp [he]
        rw [List.filter_cons, h1, List.map_cons, List.filter_cons, h1]
        simp only [if_true, List.map_cons]
        rw [ih]

/-- Removing a nodup set of present keys removes exactly that many
entries. -/
theorem length_filter_not_mem_keys (L : Collection) (ds : List String)
    (hnd : (L.map Prod.fst).Nodup) (hds : ds.Nodup)
    (hsub : ∀ i ∈ ds, i ∈ L.map Prod.fst) :
    (L.filter (fun e => decide (e.1 ∉ ds))).length = L.length - ds.length := by
  have hlen1 : (L.filter (fun e => decide (e.1 ∉ ds))).length
      = ((L.map Prod.fst).filter (fun k => decide (k ∉ ds))).length := by
    rw [← map_fst_filter_keys, List.length_map]
  have hperm : List.Perm
      ((L.map Prod.fst).filter (fun k => decide (k ∈ ds))) ds := by
    apply (List.perm_ext_iff_of_nodup (hnd.filter _) hds).mpr
    intro a
    simp only [List.mem_filter, decide_eq_true_eq]
    exact ⟨fun h => h.2, fun h => ⟨hsub a h, h⟩⟩
  have hsplit : (L.map Prod.fst).length
      = ((L.map Prod.fst).filter (fun k => decide (k ∈ ds))).length
        + ((L.map Prod.fst).filter (fun k => decide (k ∉ ds))).length := by
    have := List.length_eq_length_filter_add (l := L.map Prod.fst)
      (fun k => decide (k ∈ ds))
    simpa using this
  have hdslen : ((L.map Prod.fst).filter (fun k => decide (k ∈ ds))).length
      = ds.length := hperm.length_eq
  have hLlen : (L.map Prod.fst).length = L.length := List.length_map _ _
  omega

/-- `find_all` on a store holding exactly a (possibly empty) "product"
collection of serialized products. -/
theorem find_all_state (L : Collection)
    (hwf : ∀ e ∈ L, ∃ p : Product, e.2 = asdict p) :
    (L = [] →
      ProductRepository.find_all ⟨some [("product", L)]⟩ =
        .error .documentNotFound) ∧
    (L ≠ [] →
      ∃ l, ProductRepository.find_all ⟨some [("product", L)]⟩ = .ok l ∧
        l.length = L.length) := by
  have hfetch : Database.fetch_collection ⟨some [("product", L)]⟩ "product"
      = .ok L := by
    simp [Database.fetch_collection, dictGet]
  constructor
  · intro h
    subst h
    simp [ProductRepository.find_all, hfetch]
  · intro hL
    have hlen : ¬ L.length = 0 := fun h => hL (List.length_eq_zero.mp h)
    have hvals : ∀ d ∈ L.map Prod.snd, ∃ p : Product, d = asdict p := by
      intro d hd
      obtain ⟨e, he, rfl⟩ := List.mem_map.mp hd
      exact hwf e he
    have hmain : ∀ (docs : List Document),
        (∀ d ∈ docs, ∃ p : Product, d = asdict p) →
        ∃ l, productsOfValues docs = .ok l ∧ l.length = docs.length := by
      intro docs
      induction docs with
      | nil => exact fun _ => ⟨[], rfl, rfl⟩
      | cons d rest ih =>
          intro hall
          obtain ⟨p, hp⟩ := hall d (List.mem_cons_self _ _)
          obtain ⟨l, hl, hlen'⟩ :=
            ih (fun d' hd' => hall d' (List.mem_cons_of_mem _ hd'))
          refine ⟨p :: l, ?_, by simp [hlen']⟩
          rw [show d = asdict p from hp]
          simp [productsOfValues, productFromDict_asdict, hl]
    obtain ⟨l, hl, hlen'⟩ := hmain (L.map Prod.snd) hvals
    refine ⟨l, ?_, by simpa using hlen'⟩
    simp [ProductRepository.find_all, hfetch, hlen, hl]

/-- C7: starting from a freshly started store, creating `N` products with
pairwise-distinct ids and then deleting `M` distinct ids drawn from them
leaves `find_all` returning exactly `N − M` products — or raising
`DocumentNotFound` when `N − M = 0`. -/
theorem c7_count (db : Database) (ps : List Product) (ds : List String)
    (hnd : (ps.map Product.product_id).Nodup) (hds : ds.Nodup)
    (hsub : ∀ i ∈ ds, i ∈ ps.map Product.product_id) :
    (ps.length - ds.length = 0 →
      ProductRepository.find_all
          (deleteAll (createAll (Database.start db) ps) ds) =
        .error .documentNotFound) ∧
    (0 < ps.length - ds.length →
      ∃ l, ProductRepository.find_all
          (deleteAll (createAll (Database.start db) ps) ds) = .ok l ∧
        l.length = ps.length - ds.length) := by
  cases ps with
  | nil =>
      have hds0 : ds = [] := by
        cases ds with
        | nil => rfl
        | cons a t => exact absurd (hsub a (List.mem_cons_self _ _)) (by simp)
      subst hds0
      constructor
      · intro _
        simp [deleteAll, createAll, Database.start,
          ProductRepository.find_all, Database.fetch_collection, dictGet]
      · intro h0
        simp at h0
  | cons p rest =>
      have hC : createAll (Database.start db) (p :: rest) =
          ⟨some [("product", serializeList (p :: rest))]⟩ := by
        have h1 : createAll (Database.start db) (p :: rest) =
            createAll ⟨some [("product", [(p.product_id, asdict p)])]⟩ rest := by
          simp only [createAll, List.foldl_cons, Database.start,
            create_on_fresh]
        have h2 : (([(p.product_id, asdict p)] : Collection).map Prod.fst
            ++ rest.map Product.product_id).Nodup := by
          simpa using hnd
        rw [h1, createAll_state rest _ h2]
        simp [serializeList]
      have hwf : ∀ e ∈ serializeList (p :: rest),
          ∃ q : Product, e.2 = asdict q := by
        intro e he
        obtain ⟨q, _, rfl⟩ := List.mem_map.mp he
        exact ⟨q, rfl⟩
      have hD : deleteAll (createAll (Database.start db) (p :: rest)) ds =
          ⟨some [("product",
            (serializeList (p :: rest)).filter
              (fun e => decide (e.1 ∉ ds)))]⟩ := by
        rw [hC, deleteAll_state ds _ hwf, foldl_dictDel_eq_filter]
      have hkeys : (serializeList (p :: rest)).map Prod.fst
          = (p :: rest).map Product.product_id := by
        simp [serializeList]
      have hlen : ((serializeList (p :: rest)).filter
          (fun e => decide (e.1 ∉ ds))).length
          = (p :: rest).length - ds.length := by
        rw [length_filter_not_mem_keys _ ds (by rw [hkeys]; exact hnd) hds
          (by rw [hkeys]; exact hsub)]
        simp [serializeList]
      have hwf' : ∀ e ∈ (serializeList (p :: rest)).filter
          (fun e => decide (e.1 ∉ ds)), ∃ q : Product, e.2 = asdict q :=
        fun e he => hwf e (List.mem_of_mem_filter he)
      have hfa := find_all_state _ hwf'
      rw [hD]
      constructor
      · intro h0
        apply hfa.1
        rw [← List.length_eq_zero, hlen]
        exact h0
      · intro h0
        obtain ⟨l, hl, hlen'⟩ :=
          hfa.2 (List.length_pos.mp (by rw [hlen]; exact h0))
        exact ⟨l, hl, by rw [hlen', hlen]⟩

/-- Witness for C7: two products created, one deleted, `find_all` returns
a single product. -/
theorem c7_count_witness :
    (([⟨"1", "a", "b", 1, 2, 3⟩, ⟨"2", "c", "d", 4, 5, 6⟩] :
        List Product).map Product.product_id).Nodup ∧
    ∃ l, ProductRepository.find_all
        (deleteAll (createAll (Database.start Database.init)
          [⟨"1", "a", "b", 1, 2, 3⟩, ⟨"2", "c", "d", 4, 5, 6⟩]) ["1"]) =
      .ok l ∧
      l.length = ([⟨"1", "a", "b", 1, 2, 3⟩, ⟨"2", "c", "d", 4, 5, 6⟩] :
        List Product).length - (["1"] : List String).length :=
  ⟨by decide,
    (c7_count Database.init
      [⟨"1", "a", "b", 1, 2, 3⟩, ⟨"2", "c", "d", 4, 5, 6⟩] ["1"]
      (by decide) (by decide) (by decide)).2 (by decide)⟩

end EsercizioABC
